/-
  Verification of the emle-tutorials notebooks (ADP.ipynb, AbyU2.ipynb).

  Shallow embedding of the notebooks' own logic:
  * the RMSE error-analysis helpers of ADP.ipynb
    (get_rmse / get_static_rmse / get_induced_rmse / get_total_rmse),
    with NumPy 1-D semantics: elementwise arithmetic with length-1
    broadcasting (a shape mismatch otherwise raises, modelled as err),
    and mean of an empty array yielding NaN (modelled as nan);
  * the collective-variable restraint of AbyU2.ipynb
    (CustomBondForce weight*r summed over the bond list, wrapped in a
    CustomCVForce with energy k*(weighted_distance - r0)^2 and global
    parameters k, r0 settable on the context);
  * the unit conversion of the force constant k;
  * the production sampling loops of both notebooks;
  * the copy-and-inject construction of the fresh OpenMM context.

  Array elements are modelled as exact rationals; the final square root
  lives in the reals.
-/
import Mathlib

namespace EmleTutorials

/-! ## NumPy-style array arithmetic (error analysis of ADP.ipynb)

The analysis functions operate on 1-D NumPy arrays loaded from a `.mat`
file.  We model an array as a `List ℚ`.  Elementwise binary operations
follow NumPy's 1-D broadcasting rule: equal lengths operate elementwise;
otherwise an operand of length one is broadcast; otherwise the operation
raises a ValueError (modelled by `none`). -/

/-- NumPy elementwise subtraction `a - b` on 1-D arrays, with length-one
broadcasting; `none` models the ValueError on incompatible shapes. -/
def npSub (a b : List ℚ) : Option (List ℚ) :=
  if a.length = b.length then some (List.zipWith (fun x y => x - y) a b)
  else if b.length = 1 then some (a.map (fun x => x - b.headD 0))
  else if a.length = 1 then some (b.map (fun y => a.headD 0 - y))
  else none

/-- NumPy elementwise addition `a + b` on 1-D arrays, with length-one
broadcasting; `none` models the ValueError on incompatible shapes. -/
def npAdd (a b : List ℚ) : Option (List ℚ) :=
  if a.length = b.length then some (List.zipWith (fun x y => x + y) a b)
  else if b.length = 1 then some (a.map (fun x => x + b.headD 0))
  else if a.length = 1 then some (b.map (fun y => a.headD 0 + y))
  else none

/-- `np.mean` of a 1-D array: the arithmetic mean, except that the mean
of an empty array is NaN (modelled by `none`). -/
def npMean (xs : List ℚ) : Option ℚ :=
  if xs.length = 0 then none else some (xs.sum / xs.length)

/-- Result of a NumPy scalar computation over the rationals: a raised
exception (`err`), a NaN value (`nan`), or an ordinary rational value. -/
inductive NpQResult where
  | err : NpQResult
  | nan : NpQResult
  | val : ℚ → NpQResult
deriving DecidableEq

/-- Result of a NumPy scalar computation: a raised exception (`err`),
a NaN value (`nan`), or an ordinary real value. -/
inductive NpResult where
  | err : NpResult
  | nan : NpResult
  | val : ℝ → NpResult

/-- The radicand of `get_rmse`: `np.mean((a-b)**2)`, the computable part
of the pipeline.  Subtraction may raise on a shape mismatch (`err`); the
mean of an empty difference is NaN (`nan`). -/
def meanSqDiff (a b : List ℚ) : NpQResult :=
  match npSub a b with
  | none => .err
  | some d =>
    match npMean (d.map (fun x => x ^ 2)) with
    | none => .nan
    | some m => .val m

/-- `get_rmse(a, b) = np.sqrt(np.mean((a-b)**2))` from ADP.ipynb.
`np.sqrt` maps NaN to NaN and an exception propagates. -/
noncomputable def get_rmse (a b : List ℚ) : NpResult :=
  match meanSqDiff a b with
  | .err => .err
  | .nan => .nan
  | .val m => .val (Real.sqrt (m : ℝ))

/-- The four energy-component arrays read from the `.mat` analysis file. -/
structure MatData where
  E_static_qm : List ℚ
  E_static_emle : List ℚ
  E_induced_qm : List ℚ
  E_induced_emle : List ℚ

/-- `get_static_rmse` from ADP.ipynb. -/
noncomputable def get_static_rmse (data : MatData) : NpResult :=
  get_rmse data.E_static_qm data.E_static_emle

/-- `get_induced_rmse` from ADP.ipynb. -/
noncomputable def get_induced_rmse (data : MatData) : NpResult :=
  get_rmse data.E_induced_qm data.E_induced_emle

/-- `get_total_rmse` from ADP.ipynb: the RMSE of the elementwise sums
`E_static_qm + E_induced_qm` versus `E_static_emle + E_induced_emle`;
the sums are NumPy elementwise additions, evaluated before `get_rmse`. -/
noncomputable def get_total_rmse (data : MatData) : NpResult :=
  match npAdd data.E_static_qm data.E_induced_qm with
  | none => .err
  | some x =>
    match npAdd data.E_static_emle data.E_induced_emle with
    | none => .err
    | some y => get_rmse x y

/-! ## Collective-variable restraint (AbyU2.ipynb)

The notebook builds a `CustomBondForce` with expression `weight*r` and a
per-bond parameter `weight`, adds the bonds `(2125, 2094, 0.7)` and
`(2119, 2087, 0.3)`, and wraps it as the collective variable
`weighted_distance` of a `CustomCVForce` with energy expression
`k*(weighted_distance - r0)^2` and global parameters `k` and `r0`.
The engine supplies each bond distance `r`; we model that as a distance
oracle `d : ℕ → ℕ → ℝ` on atom indices. -/

/-- The `distances` tuple of AbyU2.ipynb: atom-index pairs with weights. -/
def distancesConfig : List (ℕ × ℕ × ℚ) :=
  [(2125, 2094, 7 / 10), (2119, 2087, 3 / 10)]

/-- Value of the `CustomBondForce` collective variable `weight*r` summed
over its bond list: the weighted distance. -/
def cvWeightedDistance (bonds : List (ℕ × ℕ × ℚ)) (d : ℕ → ℕ → ℝ) : ℝ :=
  (bonds.map (fun b => (b.2.2 : ℝ) * d b.1 b.2.1)).sum

/-- The global context parameters `k` and `r0` of the restraint force,
settable by name on an OpenMM context after construction. -/
structure CtxParams where
  k : ℝ
  r0 : ℝ

/-- `context.setParameter` for the name `k`. -/
def setParameterK (p : CtxParams) (v : ℝ) : CtxParams := { p with k := v }

/-- `context.setParameter` for the name `r0`. -/
def setParameterR0 (p : CtxParams) (v : ℝ) : CtxParams := { p with r0 := v }

/-- Energy of a `CustomCVForce` with expression
`k*(weighted_distance - r0)^2` over a given bond list, reading `k` and
`r0` from the context parameters. -/
def restraintEnergyCV (bonds : List (ℕ × ℕ × ℚ)) (p : CtxParams)
    (d : ℕ → ℕ → ℝ) : ℝ :=
  p.k * (cvWeightedDistance bonds d - p.r0) ^ 2

/-- The `restraint_force` of AbyU2.ipynb: the `CustomCVForce` energy over
the configured bond list. -/
def restraint_force (p : CtxParams) (d : ℕ → ℕ → ℝ) : ℝ :=
  restraintEnergyCV distancesConfig p d

/-! ## Unit conversion of the force constant

AbyU2.ipynb sets
`k = (125*unit.kilocalorie_per_mole/unit.angstrom**2).value_in_unit(unit.kilojoule_per_mole/unit.nanometer**2)`.
OpenMM converts with 1 kcal = 4.184 kJ and 1 Å = 0.1 nm; we model the
conversion exactly over the rationals. -/

/-- One kilocalorie in kilojoules. -/
def kcalInKJ : ℚ := 4184 / 1000

/-- One angstrom in nanometers. -/
def angstromInNm : ℚ := 1 / 10

/-- The converted force constant of AbyU2.ipynb: 125 kcal/mol/Å²
expressed in kJ/mol/nm². -/
def kConfig : ℚ := 125 * kcalInKJ / angstromInNm ^ 2

/-- The restraint target distance of AbyU2.ipynb: 2.5 Å expressed in
nanometers (OpenMM converts the quantity `2.5*unit.angstroms` to its
internal length unit). -/
def r0Config : ℚ := (25 / 10) * angstromInNm

/-! ## Production sampling loops

ADP.ipynb runs `for x in range(500): integrator.step(10); write` with no
frame written before the loop.  AbyU2.ipynb writes one initial frame and
then runs `for x in range(300): integrator.step(1); write`.  We model
the integrator as a single-step state transformer `stepOne` (so that
`integrator.step(S)` is `stepOne^[S]`), position queries as `getPos`,
and the trajectory as the list of written frames. -/

/-- The sampling loop body iterated `M` times: advance the integrator by
`S` steps, query positions, append one frame.  Returns the written
frames in order together with the final state. -/
def productionLoop (stepOne : σ → σ) (getPos : σ → π) (S : ℕ) :
    ℕ → σ → List π × σ
  | 0, s => ([], s)
  | m + 1, s =>
    let s1 := stepOne^[S] s
    let r := productionLoop stepOne getPos S m s1
    (getPos s1 :: r.1, r.2)

/-- The ADP.ipynb production cell: 500 iterations of 10 steps, no frame
written before the loop. -/
def adpSampling (stepOne : σ → σ) (getPos : σ → π) (s0 : σ) : List π :=
  (productionLoop stepOne getPos 10 500 s0).1

/-- The AbyU2.ipynb production cell: one frame written before the loop,
then 300 iterations of 1 step. -/
def abyuSampling (stepOne : σ → σ) (getPos : σ → π) (s0 : σ) : List π :=
  getPos s0 :: (productionLoop stepOne getPos 1 300 s0).1

/-- The state of the production run as a pair of position states: the
original context of the dynamics object and the fresh context.  The
copied integrator passed to `openmm.Context` is bound to the fresh
context, so one `integrator.step` call advances only the second
component. -/
def stepNewOnly (advance : π → π) : π × π → π × π :=
  fun w => (w.1, advance w.2)

/-! ## Fresh-context construction (copy and inject)

Both notebooks reach into the dynamics object for its OpenMM context,
take `omm_system = context.getSystem()` (a reference to the one System
object, not a copy), copy the integrator (`deepcopy` in ADP.ipynb,
`__copy__` in AbyU2.ipynb), and build `openmm.Context(omm_system,
integrator, platform)`; positions are copied by value via
`context.getState(getPositions=True).getPositions()` and
`new_context.setPositions`.  AbyU2.ipynb additionally calls
`omm_system.addForce(restraint_force)` before creating the new context,
which appends the force to the shared System object in place. -/

/-- The Python objects reachable from the original dynamics context: the
single System object (its force list), the original integrator, and the
original particle positions. -/
structure OmmObjects (F P I : Type) where
  systemForces : List F
  dIntegrator : I
  dPositions : P

/-- `context.getSystem()`: returns the System by reference; its force
list is the field itself. -/
def getSystemForces (s : OmmObjects F P I) : List F := s.systemForces

/-- `omm_system.addForce(f)`: appends `f` to the shared System object in
place. -/
def addForce (s : OmmObjects F P I) (f : F) : OmmObjects F P I :=
  { s with systemForces := s.systemForces ++ [f] }

/-- A freshly constructed `openmm.Context`: the System it was built on
(shared by reference with the original context), its own integrator,
its context parameters, and its positions (`none` until
`setPositions`). -/
structure NewContext (F P I : Type) where
  systemForces : List F
  integrator : I
  params : CtxParams
  positions : Option P

/-- `new_context.setParameter` for the name `k`. -/
def contextSetParameterK (c : NewContext F P I) (v : ℝ) : NewContext F P I :=
  { c with params := setParameterK c.params v }

/-- `new_context.setParameter` for the name `r0`. -/
def contextSetParameterR0 (c : NewContext F P I) (v : ℝ) : NewContext F P I :=
  { c with params := setParameterR0 c.params v }

/-- `new_context.setPositions(p)`: stores a value copy of `p`. -/
def contextSetPositions (c : NewContext F P I) (p : P) : NewContext F P I :=
  { c with positions := some p }

/-- The AbyU2.ipynb copy-and-inject cell: copy the integrator, append
the restraint to the shared System object, create the new context on
that object, set `k` and `r0` by name, and set the positions to those
read from the original context.  Returns the final state of the original
objects together with the new context. -/
def abyuCopyAndInject (s : OmmObjects F P I) (copyInteg : I → I)
    (restraint : F) (defaults : CtxParams) (kv rv : ℝ) :
    OmmObjects F P I × NewContext F P I :=
  let integ := copyInteg s.dIntegrator
  let s1 := addForce s restraint
  let c0 : NewContext F P I :=
    { systemForces := getSystemForces s1, integrator := integ,
      params := defaults, positions := none }
  let c1 := contextSetPositions
    (contextSetParameterR0 (contextSetParameterK c0 kv) rv) s1.dPositions
  (s1, c1)

/-- The ADP.ipynb fresh-context cell: copy the integrator, create the
new context on the shared System object (no force injection), and set
the positions to those read from the original context. -/
def adpFreshContext (s : OmmObjects F P I) (copyInteg : I → I)
    (defaults : CtxParams) : OmmObjects F P I × NewContext F P I :=
  let integ := copyInteg s.dIntegrator
  let c0 : NewContext F P I :=
    { systemForces := getSystemForces s, integrator := integ,
      params := defaults, positions := none }
  (s, contextSetPositions c0 s.dPositions)

/-! ## Helper lemmas -/

lemma zipWith_sub_swap (a b : List ℚ) :
    List.zipWith (fun x y => x - y) b a
      = (List.zipWith (fun x y => x - y) a b).map (fun x => -x) := by
  induction a generalizing b with
  | nil => cases b <;> simp
  | cons x xs ih =>
    cases b with
    | nil => simp
    | cons y ys => simp [ih ys, neg_sub]

lemma npSub_swap (a b : List ℚ) :
    npSub b a = (npSub a b).map (fun l => l.map (fun x => -x)) := by
  unfold npSub
  by_cases hab : a.length = b.length
  · rw [if_pos hab.symm, if_pos hab, zipWith_sub_swap a b]
    simp
  · have hba : ¬b.length = a.length := fun h => hab h.symm
    by_cases hb1 : b.length = 1
    · have ha1 : ¬a.length = 1 := fun h => hab (h.trans hb1.symm)
      have hfun : (fun x : ℚ => -(x - b.headD 0)) = fun x => b.headD 0 - x := by
        funext x; ring
      rw [if_neg hba, if_neg ha1, if_pos hb1, if_neg hab, if_pos hb1]
      simp [List.map_map, Function.comp_def, hfun]
    · by_cases ha1 : a.length = 1
      · have hfun : (fun y : ℚ => -(a.headD 0 - y)) = fun y => y - a.headD 0 := by
          funext y; ring
        rw [if_neg hba, if_pos ha1, if_neg hab, if_neg hb1, if_pos ha1]
        simp [List.map_map, Function.comp_def, hfun]
      · rw [if_neg hba, if_neg ha1, if_neg hb1, if_neg hab, if_neg hb1,
          if_neg ha1]
        simp

lemma meanSqDiff_comm (a b : List ℚ) : meanSqDiff b a = meanSqDiff a b := by
  unfold meanSqDiff
  rw [npSub_swap]
  cases npSub a b with
  | none => simp
  | some d => simp [Function.comp_def, neg_sq]

lemma sum_map_zero (a : List ℚ) : (a.map (fun _ => (0 : ℚ))).sum = 0 := by
  induction a with
  | nil => simp
  | cons x xs ih => simp [ih]

lemma meanSqDiff_self (a : List ℚ) (h : a ≠ []) : meanSqDiff a a = .val 0 := by
  have hz : List.zipWith (fun x y : ℚ => x - y) a a = a.map (fun _ => 0) := by
    induction a with
    | nil => simp
    | cons x xs ih => simp [ih]
  have hsq : ((a.map (fun _ => (0 : ℚ))).map (fun x => x ^ 2))
      = a.map (fun _ => (0 : ℚ)) := by
    simp [List.map_map, Function.comp_def]
  have hlen : a.length ≠ 0 := fun hl => h (List.length_eq_zero.mp hl)
  simp [meanSqDiff, npSub, hz, hsq, npMean, hlen, sum_map_zero]

lemma sumSqDiff_eq_range_sum (a : List ℚ) :
    ∀ b : List ℚ, a.length = b.length →
      ((List.zipWith (fun x y => x - y) a b).map (fun x => x ^ 2)).sum
        = ∑ i ∈ Finset.range a.length, (a.getD i 0 - b.getD i 0) ^ 2 := by
  induction a with
  | nil => intro b _; simp
  | cons x xs ih =>
    intro b hb
    cases b with
    | nil => simp at hb
    | cons y ys =>
      have hlen : xs.length = ys.length := by simpa using hb
      simp only [List.zipWith_cons_cons, List.map_cons, List.sum_cons,
        List.length_cons]
      rw [Finset.sum_range_succ', ih ys hlen]
      simp [add_comm]

lemma map_sum_getD {α M : Type} [AddCommMonoid M] (l : List α) (f : α → M)
    (x0 : α) :
    (l.map f).sum = ∑ i ∈ Finset.range l.length, f (l.getD i x0) := by
  induction l with
  | nil => simp
  | cons x xs ih =>
    simp only [List.map_cons, List.sum_cons, List.length_cons]
    rw [Finset.sum_range_succ', ih]
    simp [add_comm]

lemma productionLoop_fst {σ π : Type} (stepOne : σ → σ) (getPos : σ → π)
    (S : ℕ) :
    ∀ (M : ℕ) (s : σ),
      (productionLoop stepOne getPos S M s).1
        = (List.range M).map (fun i => getPos (stepOne^[S * (i + 1)] s)) := by
  intro M
  induction M with
  | zero => intro s; simp [productionLoop]
  | succ m ih =>
    intro s
    have hfun : (fun i => getPos (stepOne^[S * (i + 1)] (stepOne^[S] s)))
        = fun i => getPos (stepOne^[S * (i + 1 + 1)] s) := by
      funext i
      rw [← Function.iterate_add_apply,
        show S * (i + 1) + S = S * (i + 1 + 1) by ring]
    simp only [productionLoop]
    rw [ih, hfun, List.range_succ_eq_map, List.map_cons, List.map_map]
    simp [Function.comp_def]

lemma productionLoop_snd {σ π : Type} (stepOne : σ → σ) (getPos : σ → π)
    (S : ℕ) :
    ∀ (M : ℕ) (s : σ),
      (productionLoop stepOne getPos S M s).2 = stepOne^[S * M] s := by
  intro M
  induction M with
  | zero => intro s; simp [productionLoop]
  | succ m ih =>
    intro s
    rw [productionLoop]
    simp only [ih, ← Function.iterate_add_apply]
    rw [show S * m + S = S * (m + 1) by ring]

lemma stepNewOnly_iterate {π : Type} (advance : π → π) :
    ∀ (m : ℕ) (o n : π),
      (stepNewOnly advance)^[m] (o, n) = (o, advance^[m] n) := by
  intro m
  induction m with
  | zero => intro o n; simp
  | succ k ih =>
    intro o n
    rw [Function.iterate_succ_apply, Function.iterate_succ_apply]
    exact ih o (advance n)

lemma meanSqDiff_of_eq_length (a b : List ℚ) (hlen : a.length = b.length)
    (hne : a ≠ []) :
    meanSqDiff a b
      = .val ((∑ i ∈ Finset.range a.length, (a.getD i 0 - b.getD i 0) ^ 2)
          / (a.length : ℚ)) := by
  have h0 : a.length ≠ 0 := fun h => hne (List.length_eq_zero.mp h)
  have hsub : npSub a b = some (List.zipWith (fun x y => x - y) a b) := by
    unfold npSub
    rw [if_pos hlen]
  have hne0 :
      ¬((List.zipWith (fun x y : ℚ => x - y) a b).map
          (fun x => x ^ 2)).length = 0 := by
    rw [List.length_map, List.length_zipWith, ← hlen, min_self]
    exact h0
  have hmean :
      npMean ((List.zipWith (fun x y : ℚ => x - y) a b).map (fun x => x ^ 2))
        = some ((∑ i ∈ Finset.range a.length,
            (a.getD i 0 - b.getD i 0) ^ 2) / (a.length : ℚ)) := by
    unfold npMean
    rw [if_neg hne0, sumSqDiff_eq_range_sum a b hlen, List.length_map,
      List.length_zipWith, ← hlen, min_self]
  simp only [meanSqDiff, hsub, hmean]

/-! ## Claim theorems -/

/-- C1: get_total_rmse sums the QM components and the EMLE components
elementwise before taking the RMSE, and there is input data on which
this differs from the quadrature sqrt(static_rmse^2 + induced_rmse^2)
of the per-component RMSEs. -/
theorem total_rmse_sums_before_rmse :
    (∀ data : MatData,
      data.E_static_qm.length = data.E_induced_qm.length →
      data.E_static_emle.length = data.E_induced_emle.length →
      get_total_rmse data
        = get_rmse
            (List.zipWith (fun x y => x + y)
              data.E_static_qm data.E_induced_qm)
            (List.zipWith (fun x y => x + y)
              data.E_static_emle data.E_induced_emle))
    ∧ (∃ data : MatData, ∃ r s t : ℝ,
      get_total_rmse data = .val r
      ∧ get_static_rmse data = .val s
      ∧ get_induced_rmse data = .val t
      ∧ r ≠ Real.sqrt (s ^ 2 + t ^ 2)) := by
  constructor
  · intro data h1 h2
    have hadd1 : npAdd data.E_static_qm data.E_induced_qm
        = some (List.zipWith (fun x y => x + y)
            data.E_static_qm data.E_induced_qm) := by
      unfold npAdd
      rw [if_pos h1]
    have hadd2 : npAdd data.E_static_emle data.E_induced_emle
        = some (List.zipWith (fun x y => x + y)
            data.E_static_emle data.E_induced_emle) := by
      unfold npAdd
      rw [if_pos h2]
    simp only [get_total_rmse, hadd1, hadd2]
  · have hm1 : meanSqDiff [(1 : ℚ)] [0] = .val 1 := by
      norm_num [meanSqDiff, npSub, npMean]
    have hs1 : Real.sqrt ((1 : ℚ) : ℝ) = 1 := by
      rw [show ((1 : ℚ) : ℝ) = 1 by norm_num]
      exact Real.sqrt_one
    refine ⟨⟨[1], [0], [1], [0]⟩, 2, 1, 1, ?_, ?_, ?_, ?_⟩
    · show get_total_rmse _ = _
      unfold get_total_rmse
      simp only [show npAdd [(1 : ℚ)] [1] = some [2] from by
          norm_num [npAdd],
        show npAdd [(0 : ℚ)] [0] = some [0] from by norm_num [npAdd]]
      unfold get_rmse
      simp only [show meanSqDiff [(2 : ℚ)] [0] = .val 4 from by
        norm_num [meanSqDiff, npSub, npMean]]
      have h4 : Real.sqrt ((4 : ℚ) : ℝ) = 2 := by
        rw [show ((4 : ℚ) : ℝ) = 2 ^ 2 by norm_num]
        exact Real.sqrt_sq (by norm_num)
      rw [h4]
    · show get_rmse _ _ = _
      unfold get_rmse
      simp only [hm1]
      rw [hs1]
    · show get_rmse _ _ = _
      unfold get_rmse
      simp only [hm1]
      rw [hs1]
    · have hlt : Real.sqrt ((1 : ℝ) ^ 2 + 1 ^ 2) < 2 := by
        rw [show (1 : ℝ) ^ 2 + 1 ^ 2 = 2 by norm_num]
        have := Real.sqrt_lt_sqrt (by norm_num : (0 : ℝ) ≤ 2)
          (by norm_num : (2 : ℝ) < 4)
        rw [show (4 : ℝ) = 2 ^ 2 by norm_num, Real.sqrt_sq
          (by norm_num : (0 : ℝ) ≤ 2)] at this
        exact this
      exact ne_of_gt hlt

/-- Witness for C1: the summation-before-RMSE identity applied at
concrete one-element data. -/
theorem total_rmse_sums_before_rmse_witness :
    get_total_rmse ⟨[1], [0], [1], [0]⟩
      = get_rmse (List.zipWith (fun x y => x + y) [1] [1])
          (List.zipWith (fun x y => x + y) [0] [0]) :=
  total_rmse_sums_before_rmse.1 ⟨[1], [0], [1], [0]⟩ (by decide) (by decide)

/-- C2: on equal-length nonempty arrays, get_rmse returns the square
root of the mean of the elementwise squared differences; the embedding
is a pure function of the two arrays. -/
theorem get_rmse_formula (a b : List ℚ) (hlen : a.length = b.length)
    (hne : a ≠ []) :
    get_rmse a b
      = .val (Real.sqrt ((∑ i ∈ Finset.range a.length,
          ((a.getD i 0 : ℝ) - (b.getD i 0 : ℝ)) ^ 2) / (a.length : ℝ))) := by
  unfold get_rmse
  have harg :
      ((((∑ i ∈ Finset.range a.length, (a.getD i 0 - b.getD i 0) ^ 2)
          / (a.length : ℚ)) : ℚ) : ℝ)
        = (∑ i ∈ Finset.range a.length,
            ((a.getD i 0 : ℝ) - (b.getD i 0 : ℝ)) ^ 2) / (a.length : ℝ) := by
    push_cast
    ring
  simp only [meanSqDiff_of_eq_length a b hlen hne]
  rw [harg]

/-- Witness for C2 at a concrete pair of equal-length arrays. -/
theorem get_rmse_formula_witness :
    get_rmse [3, 1] [1, 1]
      = .val (Real.sqrt ((∑ i ∈ Finset.range ([(3 : ℚ), 1].length),
          (([(3 : ℚ), 1].getD i 0 : ℝ) - ([(1 : ℚ), 1].getD i 0 : ℝ)) ^ 2)
        / (([(3 : ℚ), 1].length : ℝ)))) :=
  get_rmse_formula [3, 1] [1, 1] (by decide) (by decide)

/-- C3 counterexample: with arrays of lengths 3 and 1, NumPy broadcasts
the length-one operand and get_rmse silently returns a value instead of
raising, refuting the claim that it fails whenever the lengths
differ. -/
theorem get_rmse_broadcast_counterexample :
    [(1 : ℚ), 2, 3].length ≠ [(5 : ℚ)].length
    ∧ get_rmse [1, 2, 3] [5] = .val (Real.sqrt (((29 : ℚ) / 3 : ℚ) : ℝ))
    ∧ get_rmse [1, 2, 3] [5] ≠ .err := by
  have hm : meanSqDiff [(1 : ℚ), 2, 3] [5] = .val (29 / 3) := by
    norm_num [meanSqDiff, npSub, npMean]
  refine ⟨by decide, ?_, ?_⟩
  · unfold get_rmse
    simp only [hm]
  · unfold get_rmse
    simp only [hm]
    simp

/-- C3 amended: get_rmse raises exactly when the two lengths differ and
neither operand has length one; with a length-one operand NumPy
broadcasting applies and a value is returned. -/
theorem get_rmse_err_of_incompatible_lengths (a b : List ℚ)
    (h1 : a.length ≠ b.length) (h2 : a.length ≠ 1) (h3 : b.length ≠ 1) :
    get_rmse a b = .err := by
  unfold get_rmse meanSqDiff npSub
  rw [if_neg h1, if_neg h3, if_neg h2]

/-- Witness for the amended C3 at arrays of lengths 2 and 0. -/
theorem get_rmse_err_of_incompatible_lengths_witness :
    get_rmse [1, 2] [] = .err :=
  get_rmse_err_of_incompatible_lengths [1, 2] [] (by decide) (by decide)
    (by decide)

/-- C4 counterexample: on the empty array the mean of the empty squared
difference is NaN, so get_rmse(a, a) is NaN and not 0, refuting the
claim for all arrays. -/
theorem get_rmse_empty_nan_counterexample :
    get_rmse ([] : List ℚ) [] = .nan ∧ NpResult.nan ≠ NpResult.val 0 := by
  constructor
  · unfold get_rmse
    simp only [show meanSqDiff ([] : List ℚ) [] = .nan from rfl]
  · simp

/-- C4 amended: get_rmse is symmetric on all arrays, and get_rmse(a, a)
is 0 for all nonempty arrays (the empty array yields NaN). -/
theorem get_rmse_symm_and_self :
    (∀ a b : List ℚ, get_rmse a b = get_rmse b a)
    ∧ (∀ a : List ℚ, a ≠ [] → get_rmse a a = .val 0) := by
  constructor
  · intro a b
    unfold get_rmse
    rw [meanSqDiff_comm]
  · intro a h
    unfold get_rmse
    rw [meanSqDiff_self a h]
    simp

/-- Witness for the amended C4 at concrete arrays. -/
theorem get_rmse_symm_and_self_witness :
    get_rmse [(1 : ℚ), 2] [3, 4] = get_rmse [3, 4] [1, 2]
    ∧ get_rmse [(5 : ℚ)] [5] = .val 0 :=
  ⟨get_rmse_symm_and_self.1 [1, 2] [3, 4],
    get_rmse_symm_and_self.2 [5] (by decide)⟩

/-- C7: the force-constant conversion maps 125 kcal/mol/Å² to exactly
52300 kJ/mol/nm² using 1 kcal = 4.184 kJ and 1 Å = 0.1 nm; in the exact
rational model of the conversion the equality is on the nose. -/
theorem k_unit_conversion : kConfig = 52300 := by
  norm_num [kConfig, kcalInKJ, angstromInNm]

/-- C5: the restraint construction yields the single scalar energy term
k * (sum of weight_i * distance(pair_i) - r0)^2; in the observed
configuration this is k * (0.7*d(2125,2094) + 0.3*d(2119,2087) - r0)^2;
and setting the context parameters k and r0 by name after construction
changes the energy accordingly without changing the bond term. -/
theorem restraint_force_formula_and_parameters :
    (∀ (p : CtxParams) (d : ℕ → ℕ → ℝ),
      restraint_force p d
        = p.k * (7 / 10 * d 2125 2094 + 3 / 10 * d 2119 2087 - p.r0) ^ 2)
    ∧ (∀ (bonds : List (ℕ × ℕ × ℚ)) (p : CtxParams) (d : ℕ → ℕ → ℝ),
      restraintEnergyCV bonds p d
        = p.k * ((∑ i ∈ Finset.range bonds.length,
            ((bonds.getD i default).2.2 : ℝ)
              * d (bonds.getD i default).1 (bonds.getD i default).2.1)
          - p.r0) ^ 2)
    ∧ (∀ (p : CtxParams) (kv rv : ℝ) (d : ℕ → ℕ → ℝ),
      restraint_force (setParameterR0 (setParameterK p kv) rv) d
        = kv * (cvWeightedDistance distancesConfig d - rv) ^ 2) := by
  refine ⟨?_, ?_, ?_⟩
  · intro p d
    simp [restraint_force, restraintEnergyCV, cvWeightedDistance,
      distancesConfig]
  · intro bonds p d
    rw [restraintEnergyCV, cvWeightedDistance,
      map_sum_getD _ _ (default : ℕ × ℕ × ℚ)]
  · intro p kv rv d
    simp [restraint_force, restraintEnergyCV, setParameterK, setParameterR0]

/-- C6: with the configured parameters, the restraint energy is 0 when
the weighted distance equals r0, strictly positive otherwise, and
strictly increasing in the deviation of the weighted distance from
r0. -/
theorem restraint_energy_zero_pos_monotone :
    (∀ d : ℕ → ℕ → ℝ,
      cvWeightedDistance distancesConfig d = (r0Config : ℝ) →
      restraint_force ⟨(kConfig : ℝ), (r0Config : ℝ)⟩ d = 0)
    ∧ (∀ d : ℕ → ℕ → ℝ,
      cvWeightedDistance distancesConfig d ≠ (r0Config : ℝ) →
      0 < restraint_force ⟨(kConfig : ℝ), (r0Config : ℝ)⟩ d)
    ∧ (∀ d e : ℕ → ℕ → ℝ,
      |cvWeightedDistance distancesConfig d - (r0Config : ℝ)|
          < |cvWeightedDistance distancesConfig e - (r0Config : ℝ)| →
      restraint_force ⟨(kConfig : ℝ), (r0Config : ℝ)⟩ d
        < restraint_force ⟨(kConfig : ℝ), (r0Config : ℝ)⟩ e) := by
  have hk : (0 : ℝ) < (kConfig : ℝ) := by
    norm_num [kConfig, kcalInKJ, angstromInNm]
  refine ⟨?_, ?_, ?_⟩
  · intro d h
    simp [restraint_force, restraintEnergyCV, h]
  · intro d h
    have h2 : cvWeightedDistance distancesConfig d - (r0Config : ℝ) ≠ 0 :=
      sub_ne_zero.mpr h
    exact mul_pos hk
      (lt_of_le_of_ne (sq_nonneg _) (Ne.symm (pow_ne_zero 2 h2)))
  · intro d e h
    obtain ⟨h1, h2⟩ := abs_lt.mp h
    have hsq := mul_lt_mul_of_pos_left (sq_lt_sq' h1 h2) hk
    simpa [restraint_force, restraintEnergyCV] using hsq

/-- Witness for C6 at concrete distance oracles: the constant oracle
1/4 gives weighted distance r0 and energy 0; 1/2 gives positive energy;
1 is farther from r0 than 1/2 and gives larger energy. -/
theorem restraint_energy_zero_pos_monotone_witness :
    restraint_force ⟨(kConfig : ℝ), (r0Config : ℝ)⟩ (fun _ _ => 1 / 4) = 0
    ∧ 0 < restraint_force ⟨(kConfig : ℝ), (r0Config : ℝ)⟩ (fun _ _ => 1 / 2)
    ∧ restraint_force ⟨(kConfig : ℝ), (r0Config : ℝ)⟩ (fun _ _ => 1 / 2)
        < restraint_force ⟨(kConfig : ℝ), (r0Config : ℝ)⟩ (fun _ _ => 1) := by
  refine ⟨restraint_energy_zero_pos_monotone.1 _ ?_,
    restraint_energy_zero_pos_monotone.2.1 _ ?_,
    restraint_energy_zero_pos_monotone.2.2 _ _ ?_⟩
  · norm_num [cvWeightedDistance, distancesConfig, r0Config, angstromInNm]
  · norm_num [cvWeightedDistance, distancesConfig, r0Config, angstromInNm]
  · norm_num [cvWeightedDistance, distancesConfig, r0Config, angstromInNm]
    rw [abs_of_pos, abs_of_pos] <;> norm_num

/-- C8: the sampling loop writes exactly one frame per iteration after
advancing the integrator by exactly S steps, so the ADP run (M=500,
S=10, no pre-loop write) yields exactly 500 frames and the AbyU run
(M=300, S=1, one initial frame) yields exactly 301 frames; the i-th
loop frame is the position after S*(i+1) steps. -/
theorem sampling_loop_frame_counts {σ π : Type} (stepOne : σ → σ)
    (getPos : σ → π) (s0 : σ) :
    (adpSampling stepOne getPos s0).length = 500
    ∧ (abyuSampling stepOne getPos s0).length = 301
    ∧ adpSampling stepOne getPos s0
        = (List.range 500).map (fun i => getPos (stepOne^[10 * (i + 1)] s0))
    ∧ abyuSampling stepOne getPos s0
        = getPos s0
          :: (List.range 300).map (fun i => getPos (stepOne^[i + 1] s0)) := by
  refine ⟨?_, ?_, ?_, ?_⟩
  · simp [adpSampling, productionLoop_fst]
  · simp [abyuSampling, productionLoop_fst]
  · simp [adpSampling, productionLoop_fst]
  · simp [abyuSampling, productionLoop_fst]

/-- C10: only the fresh context evolves during the production loop: at
every step the original context component is unchanged, the final state
keeps the original positions, and every frame written is a query of the
fresh context position state. -/
theorem loop_advances_only_new_context {π : Type} (advance : π → π)
    (o n : π) :
    (∀ m : ℕ, ((stepNewOnly advance)^[m] (o, n)).1 = o)
    ∧ ((productionLoop (stepNewOnly advance) Prod.snd 10 500 (o, n)).2).1 = o
    ∧ ((productionLoop (stepNewOnly advance) Prod.snd 1 300 (o, n)).2).1 = o
    ∧ adpSampling (stepNewOnly advance) Prod.snd (o, n)
        = (List.range 500).map (fun i => advance^[10 * (i + 1)] n)
    ∧ abyuSampling (stepNewOnly advance) Prod.snd (o, n)
        = n :: (List.range 300).map (fun i => advance^[i + 1] n) := by
  refine ⟨?_, ?_, ?_, ?_, ?_⟩
  · intro m
    rw [stepNewOnly_iterate]
  · rw [productionLoop_snd, stepNewOnly_iterate]
  · rw [productionLoop_snd, stepNewOnly_iterate]
  · unfold adpSampling
    rw [productionLoop_fst]
    simp only [stepNewOnly_iterate]
  · unfold abyuSampling
    rw [productionLoop_fst]
    simp only [one_mul, stepNewOnly_iterate]

/-- C9 counterexample: at a concrete original context holding a system
with one force, the copy-and-inject step of AbyU2.ipynb leaves the
original context with a system whose force list has changed, refuting
the claim that the original context system is not modified (the System
object is shared by reference and the restraint is appended in
place). -/
theorem fresh_context_system_mutated :
    (abyuCopyAndInject (⟨[0], 0, 0⟩ : OmmObjects ℕ ℕ ℕ) id 1 ⟨0, 0⟩
        0 0).1.systemForces
      ≠ (⟨[0], 0, 0⟩ : OmmObjects ℕ ℕ ℕ).systemForces := by
  decide

/-- C9 amended: the fresh context is created from the prior context
with the System shared by reference, a copied integrator, and positions
copied by value: afterwards the new context positions equal the
original positions and the original integrator and positions are
unchanged, but in the AbyU path the shared System force list has the
restraint appended (in the ADP path the original objects are entirely
unchanged). -/
theorem fresh_context_copy_semantics {F P I : Type} (s : OmmObjects F P I)
    (copyInteg : I → I) (restraint : F) (defaults : CtxParams) (kv rv : ℝ) :
    ((abyuCopyAndInject s copyInteg restraint defaults kv rv).2).positions
        = some s.dPositions
    ∧ ((abyuCopyAndInject s copyInteg restraint defaults kv rv).1).dIntegrator
        = s.dIntegrator
    ∧ ((abyuCopyAndInject s copyInteg restraint defaults kv rv).1).dPositions
        = s.dPositions
    ∧ ((abyuCopyAndInject s copyInteg restraint defaults kv rv).1).systemForces
        = s.systemForces ++ [restraint]
    ∧ ((abyuCopyAndInject s copyInteg restraint defaults kv rv).2).systemForces
        = s.systemForces ++ [restraint]
    ∧ ((abyuCopyAndInject s copyInteg restraint defaults kv rv).2).integrator
        = copyInteg s.dIntegrator
    ∧ ((abyuCopyAndInject s copyInteg restraint defaults kv rv).2).params
        = ⟨kv, rv⟩
    ∧ (adpFreshContext s copyInteg defaults).1 = s
    ∧ ((adpFreshContext s copyInteg defaults).2).positions
        = some s.dPositions
    ∧ ((adpFreshContext s copyInteg defaults).2).integrator
        = copyInteg s.dIntegrator :=
  ⟨rfl, rfl, rfl, rfl, rfl, rfl, rfl, rfl, rfl, rfl⟩

end EmleTutorials
